import Mathlib

/-!
Shallow embedding of the expression-level parser core of the repository
(src/ecmascript/parser/src/parser/expr/ops.rs and the context-scoping part
of src/ecmascript/parser/src/parser/stmt/module_item.rs), together with
theorems settling the frozen claims about it.

Conventions of the embedding:
* the token stream is a list of tokens, each carrying its kind, its byte
  span `[lo, hi)` and the flag "a line break occurred before this token";
* the parser state bundles the remaining tokens, the end position of the
  last consumed token (`last_pos`, used by the `span!(start)` macro of the
  source) and the current `Context` (the source reads it via `self.ctx()`);
* fallible parsing returns `Except SyntaxError (α × ParserState)`;
* recursion is made structural with an explicit fuel argument; running out
  of fuel yields the artificial error `SyntaxError.OutOfFuel`, which no
  source path produces (every concrete evaluation below uses ample fuel).
-/

/-- A half-open `[lo, hi)` source range (swc_common `Span`). -/
structure Span where
  lo : Nat
  hi : Nat
  deriving DecidableEq, Repr

/-- Containment of spans: `spanContains outer inner` holds when `outer`
fully contains `inner`. -/
def spanContains (outer inner : Span) : Bool :=
  outer.lo ≤ inner.lo && inner.hi ≤ outer.hi

/-- Keyword words observed by this core. -/
inductive Keyword where
  | In | InstanceOf | Delete | Void | TypeOf | Await
  deriving DecidableEq, Repr

/-- A word token: a keyword or an identifier (token `Word` of the source). -/
inductive Word where
  | Keyword (k : Keyword)
  | Ident (s : String)
  deriving DecidableEq, Repr

/-- Punctuator binary-operator tokens (token `BinOp` of the source);
only the operators exercised by the claims are listed. -/
inductive BinOpToken where
  | Add | Sub | Mul | Div | Mod | Exp
  deriving DecidableEq, Repr

/-- Token kinds consumed by this core (plus the few punctuators the
modelled left-hand-side collaborator needs: parens, dot, semicolon). -/
inductive TokenKind where
  | Word (w : Word)
  | BinOp (b : BinOpToken)
  | PlusPlus
  | MinusMinus
  | Tilde
  | Bang
  | Num (n : Nat)
  | LParen
  | RParen
  | Dot
  | Semi
  deriving DecidableEq, Repr

/-- A token: kind, span, and whether a line terminator precedes it. -/
structure Token where
  kind : TokenKind
  lo : Nat
  hi : Nat
  had_line_break_before : Bool
  deriving DecidableEq, Repr

/-- AST binary operators (the subset exercised here). -/
inductive BinaryOp where
  | In | InstanceOf | Add | Sub | Mul | Div | Mod | Exp
  deriving DecidableEq, Repr

/-- AST unary operators. -/
inductive UnaryOp where
  | Delete | Void | TypeOf | Plus | Minus | Tilde | Bang
  deriving DecidableEq, Repr

/-- AST update operators. -/
inductive UpdateOp where
  | PlusPlus | MinusMinus
  deriving DecidableEq, Repr

/-- Conversion from a punctuator token to the AST operator
(`op.into()` at ops.rs line 34). -/
def BinOpToken.intoBinaryOp : BinOpToken → BinaryOp
  | .Add => .Add
  | .Sub => .Sub
  | .Mul => .Mul
  | .Div => .Div
  | .Mod => .Mod
  | .Exp => .Exp

/-- Modelled from the spec: the Operator Model (§4.1) lives outside src/;
each binary operator has a fixed integer precedence, higher binds tighter
(`in`/`instanceof` rank with the relational operators, additive below
multiplicative below exponentiation). Only the relative order matters to
the engine. -/
def BinaryOp.precedence : BinaryOp → Nat
  | .In => 7
  | .InstanceOf => 7
  | .Add => 9
  | .Sub => 9
  | .Mul => 10
  | .Div => 10
  | .Mod => 10
  | .Exp => 11

/-- Parsing context (the fields of `Context` this core reads). -/
structure Context where
  include_in_expr : Bool
  in_async : Bool
  in_generator : Bool
  strict : Bool
  deriving DecidableEq, Repr

/-- Parser state: remaining tokens, end of the last consumed token
(`last_pos`), and the current context. -/
structure ParserState where
  tokens : List Token
  last_pos : Nat
  ctx : Context
  deriving DecidableEq, Repr

/-- Kind of the current token, if any (`cur!()` observation). -/
def currentKind (st : ParserState) : Option TokenKind :=
  match st.tokens with
  | [] => none
  | t :: _ => some t.kind

/-- Position of the current token (`cur_pos!()`); at end of input the
source falls back to the last position. -/
def cur_pos (st : ParserState) : Nat :=
  match st.tokens with
  | [] => st.last_pos
  | t :: _ => t.lo

/-- Consume the current token (`bump!()`), returning its kind and the new
state; `bump!()` panics at end of input in the source, so the `[]` case is
unreachable on every path modelled here (a dummy kind is returned). -/
def bump (st : ParserState) : TokenKind × ParserState :=
  match st.tokens with
  | [] => (.Semi, st)
  | t :: ts => (t.kind, ⟨ts, t.hi, st.ctx⟩)

/-- Observation `self.input.had_line_break_before_cur()` of the token
stream collaborator. -/
def had_line_break_before_cur (st : ParserState) : Bool :=
  match st.tokens with
  | [] => false
  | t :: _ => t.had_line_break_before

/-- Replace the context of a state (used by the scoping combinator). -/
def setCtx (st : ParserState) (c : Context) : ParserState :=
  ⟨st.tokens, st.last_pos, c⟩

mutual
/-- An expression node: a span plus a node kind (struct `Expr` of the AST). -/
inductive Expr where
  | mk : Span → ExprKind → Expr

/-- Expression node kinds: the four shapes owned by this core (`Unary`,
`Update` with its prefix flag, `Bin`, `Await`) plus the opaque variants the
modelled left-hand-side collaborator produces (identifier, numeric literal,
member access, parenthesized expression, arrow marker). -/
inductive ExprKind where
  | Unary : UnaryOp → Expr → ExprKind
  | Update : UpdateOp → Bool → Expr → ExprKind
  | Bin : BinaryOp → Expr → Expr → ExprKind
  | Await : Expr → ExprKind
  | Ident : String → ExprKind
  | Lit : Nat → ExprKind
  | Member : Expr → String → ExprKind
  | Paren : Expr → ExprKind
  | Arrow : ExprKind
end

deriving instance DecidableEq for Expr

/-- The span of an expression node. -/
def Expr.span : Expr → Span
  | .mk s _ => s

/-- The kind of an expression node. -/
def Expr.node : Expr → ExprKind
  | .mk _ k => k

/-- Whether a node kind is the arrow-function marker (`return_if_arrow!`). -/
def ExprKind.isArrow : ExprKind → Bool
  | .Arrow => true
  | _ => false

/-- Whether a node kind is a `Unary` node (the `ExprKind::Unary { .. }`
pattern of the exponentiation guard at ops.rs line 63). -/
def ExprKind.isUnary : ExprKind → Bool
  | .Unary _ _ => true
  | _ => false

mutual
/-- Modelled from the spec: `ExprExt::is_valid_simple_assignment_target`
lives in util.rs, outside src/. Per §4.2/§7 a valid simple assignment
target is "a reference expression that is an identifier (not a reserved
word in strict mode) or a qualifying member-access expression, not a
literal, call, or computed expression"; a parenthesized expression defers
to its inner expression. -/
def Expr.is_valid_simple_assignment_target : Expr → Bool → Bool
  | .mk _ k, strict => ExprKind.targetCheck k strict

/-- Helper of `Expr.is_valid_simple_assignment_target` on node kinds. -/
def ExprKind.targetCheck : ExprKind → Bool → Bool
  | .Ident s, strict =>
      !(strict && (s = "eval" || s = "arguments"))
  | .Member _ _, _ => true
  | .Paren e, strict => Expr.is_valid_simple_assignment_target e strict
  | _, _ => false
end

/-- Syntax errors produced on the modelled paths. `UnaryInExp` carries the
left operand's span (the source also carries a debug rendering of the
operand, omitted here); `NotSimpleAssign` carries the span the
`syntax_error!` macro was given. `OutOfFuel` is an artifact of the
embedding, produced by no source path. -/
inductive SyntaxError where
  | UnaryInExp : Span → SyntaxError
  | NotSimpleAssign : Span → SyntaxError
  | AwaitStar : SyntaxError
  | Unexpected : SyntaxError
  | Eof : SyntaxError
  | OutOfFuel : SyntaxError
  deriving DecidableEq, Repr

/-- Result of an expression parse. -/
abbrev PResult := Except SyntaxError (Expr × ParserState)

/-- The operator classification of ops.rs lines 25-38: `in` is a candidate
binary operator only when `ctx.include_in_expr` holds, `instanceof` and the
punctuator binary operators always are, everything else (including end of
input, where `cur!()` errs and the engine returns `left`) is "not an
operator". -/
def classify_bin_op (c : Context) (k : Option TokenKind) : Option BinaryOp :=
  match k with
  | some (.Word (.Keyword .In)) =>
      if c.include_in_expr then some .In else none
  | some (.Word (.Keyword .InstanceOf)) => some .InstanceOf
  | some (.BinOp b) => some b.intoBinaryOp
  | _ => none

/-- Whether the current token starts a unary-operator expression
(`is_one_of!("delete", "void", "typeof", plus, minus, tilde, bang)`). -/
def is_unary_op_tok : Option TokenKind → Bool
  | some (.Word (.Keyword .Delete)) => true
  | some (.Word (.Keyword .Void)) => true
  | some (.Word (.Keyword .TypeOf)) => true
  | some (.BinOp .Add) => true
  | some (.BinOp .Sub) => true
  | some .Tilde => true
  | some .Bang => true
  | _ => false

mutual

/-- ops.rs `parse_bin_expr`: parse a unary expression, return it untouched
if it is an arrow function, otherwise climb binary operators from
threshold 0. -/
def parse_bin_expr : Nat → ParserState → PResult
  | 0, _ => .error .OutOfFuel
  | fuel+1, st =>
    match parse_unary_expr fuel st with
    | .error e => .error e
    | .ok (left, st1) =>
      if left.node.isArrow then .ok (left, st1)
      else parse_bin_op_recursively fuel left 0 st1

/-- ops.rs `parse_bin_op_recursively`: the precedence-climbing engine.
Returns `left` at end of input or on a non-operator token; returns `left`
without consuming the token when the operator's precedence is at most
`min_prec`; signals `UnaryInExp` when `left` is a `Unary` node and the
operator is `**`; otherwise parses the right operand (a unary expression
climbed with the operator's precedence, minus one for the
right-associative `**`), folds a `Bin` node spanning from `left`'s start
to the last consumed position, and continues climbing at `min_prec`. -/
def parse_bin_op_recursively : Nat → Expr → Nat → ParserState → PResult
  | 0, _, _, _ => .error .OutOfFuel
  | fuel+1, left, min_prec, st =>
    match classify_bin_op st.ctx (currentKind st) with
    | none => .ok (left, st)
    | some op =>
      if op.precedence ≤ min_prec then .ok (left, st)
      else
        let st1 := (bump st).2
        if left.node.isUnary && (op = BinaryOp.Exp) then
          .error (.UnaryInExp left.span)
        else
          match parse_unary_expr fuel st1 with
          | .error e => .error e
          | .ok (left_of_right, st2) =>
            match parse_bin_op_recursively fuel left_of_right
                (if op = BinaryOp.Exp then op.precedence - 1
                 else op.precedence) st2 with
            | .error e => .error e
            | .ok (right, st3) =>
              let node : Expr :=
                .mk ⟨left.span.lo, st3.last_pos⟩ (.Bin op left right)
              parse_bin_op_recursively fuel node min_prec st3

/-- ops.rs `parse_unary_expr`: prefix update operators (with the
simple-assignment-target early error on the operand), unary operators,
`await` when `ctx.in_async`, then fallthrough to the left-hand-side
collaborator followed by the ASI-restricted postfix update operators
(again with the target early error). Note the source rebinds `start` to
the position of the postfix operator before building the postfix node. -/
def parse_unary_expr : Nat → ParserState → PResult
  | 0, _ => .error .OutOfFuel
  | fuel+1, st =>
    let start := cur_pos st
    if currentKind st = some .PlusPlus || currentKind st = some .MinusMinus then
      let (k, st1) := bump st
      let op : UpdateOp :=
        if k = .PlusPlus then .PlusPlus else .MinusMinus
      match parse_unary_expr fuel st1 with
      | .error e => .error e
      | .ok (arg, st2) =>
        if !(arg.is_valid_simple_assignment_target st2.ctx.strict) then
          .error (.NotSimpleAssign arg.span)
        else
          .ok (.mk ⟨start, st2.last_pos⟩ (.Update op true arg), st2)
    else if is_unary_op_tok (currentKind st) then
      let (k, st1) := bump st
      let op : UnaryOp :=
        match k with
        | .Word (.Keyword .Delete) => .Delete
        | .Word (.Keyword .Void) => .Void
        | .Word (.Keyword .TypeOf) => .TypeOf
        | .BinOp .Add => .Plus
        | .BinOp .Sub => .Minus
        | .Tilde => .Tilde
        | _ => .Bang
      match parse_unary_expr fuel st1 with
      | .error e => .error e
      | .ok (arg, st2) =>
        .ok (.mk ⟨start, st2.last_pos⟩ (.Unary op arg), st2)
    else if st.ctx.in_async && (currentKind st = some (.Word (.Keyword .Await)) : Bool) then
      parse_await_expr fuel st
    else
      match parse_lhs_expr fuel st with
      | .error e => .error e
      | .ok (expr, st1) =>
        if expr.node.isArrow then .ok (expr, st1)
        else if had_line_break_before_cur st1 then .ok (expr, st1)
        else if currentKind st1 = some .PlusPlus
             || currentKind st1 = some .MinusMinus then
          if !(expr.is_valid_simple_assignment_target st1.ctx.strict) then
            .error (.NotSimpleAssign expr.span)
          else
            let start := cur_pos st1
            let (k, st2) := bump st1
            let op : UpdateOp :=
              if k = .PlusPlus then .PlusPlus else .MinusMinus
            .ok (.mk ⟨start, st2.last_pos⟩ (.Update op false expr), st2)
        else .ok (expr, st1)

/-- ops.rs `parse_await_expr`: consume `await` (asserting `ctx.in_async`),
reject an immediately following `*` with `AwaitStar`, otherwise parse the
operand as a unary expression and wrap it in an `Await` node spanning from
the `await` keyword (the `spanned` combinator of the source). -/
def parse_await_expr : Nat → ParserState → PResult
  | 0, _ => .error .OutOfFuel
  | fuel+1, st =>
    let start := cur_pos st
    let st1 := (bump st).2
    if currentKind st1 = some (.BinOp .Mul) then
      .error .AwaitStar
    else
      match parse_unary_expr fuel st1 with
      | .error e => .error e
      | .ok (arg, st2) =>
        .ok (.mk ⟨start, st2.last_pos⟩ (.Await arg), st2)

/-- Modelled from the spec: the left-hand-side expression parser
(`parse_lhs_expr`) is an external collaborator (§1, §4.2 step 4) outside
src/; it yields primary/member chains. Modelled forms: numeric literals,
identifiers (a keyword `await` reaching this point is handled as an
identifier-like word, §8 await gating), parenthesized expressions, and
`.name` member chains. -/
def parse_lhs_expr : Nat → ParserState → PResult
  | 0, _ => .error .OutOfFuel
  | fuel+1, st =>
    match st.tokens with
    | [] => .error .Eof
    | t :: _ =>
      match t.kind with
      | .Num n =>
        let st1 := (bump st).2
        parse_member_chain fuel (.mk ⟨t.lo, t.hi⟩ (.Lit n)) st1
      | .Word (.Ident s) =>
        let st1 := (bump st).2
        parse_member_chain fuel (.mk ⟨t.lo, t.hi⟩ (.Ident s)) st1
      | .Word (.Keyword .Await) =>
        let st1 := (bump st).2
        parse_member_chain fuel (.mk ⟨t.lo, t.hi⟩ (.Ident "await")) st1
      | .LParen =>
        let st1 := (bump st).2
        match parse_bin_expr fuel st1 with
        | .error e => .error e
        | .ok (inner, st2) =>
          match st2.tokens with
          | rp :: _ =>
            if rp.kind = .RParen then
              let st3 := (bump st2).2
              parse_member_chain fuel
                (.mk ⟨t.lo, rp.hi⟩ (.Paren inner)) st3
            else .error .Unexpected
          | [] => .error .Eof
      | _ => .error .Unexpected

/-- Modelled from the spec: member-access chains (`obj.prop`) of the
left-hand-side collaborator (§4.2 "qualifying member-access expression"). -/
def parse_member_chain : Nat → Expr → ParserState → PResult
  | 0, _, _ => .error .OutOfFuel
  | fuel+1, obj, st =>
    match st.tokens with
    | d :: rest =>
      if d.kind = .Dot then
        match rest with
        | p :: _ =>
          match p.kind with
          | .Word (.Ident s) =>
            let st1 := (bump (bump st).2).2
            parse_member_chain fuel (.mk ⟨obj.span.lo, p.hi⟩ (.Member obj s)) st1
          | _ => .error .Unexpected
        | [] => .error .Eof
      else .ok (obj, st)
    | [] => .ok (obj, st)

end


/-- Identifier AST node (swc `Ident`): a span and a symbol. -/
structure Ident where
  span : Span
  sym : String
  deriving DecidableEq, Repr

/-- Modelled from the spec: `Parser::with_ctx` lives outside src/; it runs
a sub-parse under the given Context and, on return, the caller's original
Context is back in force (§4.4: "a modified Context copy scoped to that
sub-parse only; on return, the caller's original Context is used for all
subsequent siblings"). -/
def with_ctx {α : Type} (c : Context)
    (f : ParserState → Except SyntaxError (α × ParserState))
    (st : ParserState) : Except SyntaxError (α × ParserState) :=
  match f (setCtx st c) with
  | .ok (a, st1) => .ok (a, setCtx st1 st.ctx)
  | .error e => .error e

/-- Modelled from the spec: `parse_binding_ident` is an external
collaborator (§6) consuming one identifier-like word as a binding name;
the keyword `await` is usable as a binding name only where `in_async` is
off (§4.4 "must parse with `await` unavailable"). -/
def parse_binding_ident (st : ParserState) :
    Except SyntaxError (Ident × ParserState) :=
  match st.tokens with
  | [] => .error .Eof
  | t :: _ =>
    match t.kind with
    | .Word (.Ident s) => .ok (⟨⟨t.lo, t.hi⟩, s⟩, (bump st).2)
    | .Word (.Keyword .Await) =>
      if st.ctx.in_async then .error .Unexpected
      else .ok (⟨⟨t.lo, t.hi⟩, "await"⟩, (bump st).2)
    | _ => .error .Unexpected

/-- Source `parse_imported_binding` (module_item.rs lines 120-127): build
a Context copy with `in_async` and `in_generator` cleared (the other
fields inherited via `..self.ctx()`) and parse a binding identifier under
it, scoped by `with_ctx`. -/
def parse_imported_binding (st : ParserState) :
    Except SyntaxError (Ident × ParserState) :=
  with_ctx ⟨st.ctx.include_in_expr, false, false, st.ctx.strict⟩
    parse_binding_ident st

/-- Modelled from the spec: `parse_assignment_expr` (§6) is the expression
entry point this core exposes; the assignment/conditional layers above the
binary engine are external collaborators (§1), so it is modelled as the
binary-expression entry point. -/
def parse_assignment_expr : Nat → ParserState → PResult :=
  parse_bin_expr

/-- Source `parse_export`, default-export-expression arm (module_item.rs
lines 151-156): parse the exported expression under a Context copy with
`include_in_expr` set (`self.include_in_expr(true).parse_assignment_expr()`),
then expect `;`. -/
def parse_export_default_expr (fuel : Nat) (st : ParserState) : PResult :=
  match with_ctx ⟨true, st.ctx.in_async, st.ctx.in_generator, st.ctx.strict⟩
      (parse_assignment_expr fuel) st with
  | .error e => .error e
  | .ok (expr, st1) =>
    match st1.tokens with
    | t :: _ =>
      if t.kind = .Semi then .ok (expr, (bump st1).2)
      else .error .Unexpected
    | [] => .error .Eof

/-! Concrete fixtures: contexts and token streams used by the theorems.
Token positions mirror the byte offsets of the indicated source text. -/

/-- Baseline context: all flags off. -/
def ctx0 : Context := ⟨false, false, false, false⟩

/-- Context with `include_in_expr` set. -/
def ctxIn : Context := ⟨true, false, false, false⟩

/-- Context with `in_async` set. -/
def ctxAsync : Context := ⟨false, true, false, false⟩

/-- Initial state on a token stream under a context. -/
def mkState (ts : List Token) (c : Context) : ParserState := ⟨ts, 0, c⟩

/-- Tokens of `x++`. -/
def toksXpp : List Token :=
  [⟨.Word (.Ident "x"), 0, 1, false⟩, ⟨.PlusPlus, 1, 3, false⟩]

/-- Tokens of `x in y`. -/
def toksXInY : List Token :=
  [⟨.Word (.Ident "x"), 0, 1, false⟩, ⟨.Word (.Keyword .In), 2, 4, false⟩,
   ⟨.Word (.Ident "y"), 5, 6, false⟩]

/-- Tokens of `x instanceof y`. -/
def toksXInstY : List Token :=
  [⟨.Word (.Ident "x"), 0, 1, false⟩,
   ⟨.Word (.Keyword .InstanceOf), 2, 12, false⟩,
   ⟨.Word (.Ident "y"), 13, 14, false⟩]

/-- Tokens of `-2 ** 2`. -/
def toksNeg2Exp : List Token :=
  [⟨.BinOp .Sub, 0, 1, false⟩, ⟨.Num 2, 1, 2, false⟩,
   ⟨.BinOp .Exp, 3, 5, false⟩, ⟨.Num 2, 6, 7, false⟩]

/-- Tokens of `(-2) ** 2`. -/
def toksParenNeg2Exp : List Token :=
  [⟨.LParen, 0, 1, false⟩, ⟨.BinOp .Sub, 1, 2, false⟩, ⟨.Num 2, 2, 3, false⟩,
   ⟨.RParen, 3, 4, false⟩, ⟨.BinOp .Exp, 5, 7, false⟩, ⟨.Num 2, 8, 9, false⟩]

/-- Tokens of `2 ** 3 ** 2`. -/
def toksExpChain : List Token :=
  [⟨.Num 2, 0, 1, false⟩, ⟨.BinOp .Exp, 2, 4, false⟩, ⟨.Num 3, 5, 6, false⟩,
   ⟨.BinOp .Exp, 7, 9, false⟩, ⟨.Num 2, 10, 11, false⟩]

/-- Tokens of `5 + 4 + 7`. -/
def toksAddChain : List Token :=
  [⟨.Num 5, 0, 1, false⟩, ⟨.BinOp .Add, 2, 3, false⟩, ⟨.Num 4, 4, 5, false⟩,
   ⟨.BinOp .Add, 6, 7, false⟩, ⟨.Num 7, 8, 9, false⟩]

/-- Tokens of `5 + 4 * 7`. -/
def toksAddMul : List Token :=
  [⟨.Num 5, 0, 1, false⟩, ⟨.BinOp .Add, 2, 3, false⟩, ⟨.Num 4, 4, 5, false⟩,
   ⟨.BinOp .Mul, 6, 7, false⟩, ⟨.Num 7, 8, 9, false⟩]

/-- Tokens of `5++`. -/
def toks5pp : List Token := [⟨.Num 5, 0, 1, false⟩, ⟨.PlusPlus, 1, 3, false⟩]

/-- Tokens of `(a + b)++`. -/
def toksParenAddPP : List Token :=
  [⟨.LParen, 0, 1, false⟩, ⟨.Word (.Ident "a"), 1, 2, false⟩,
   ⟨.BinOp .Add, 3, 4, false⟩, ⟨.Word (.Ident "b"), 5, 6, false⟩,
   ⟨.RParen, 6, 7, false⟩, ⟨.PlusPlus, 7, 9, false⟩]

/-- Tokens of `obj.prop++`. -/
def toksObjPropPP : List Token :=
  [⟨.Word (.Ident "obj"), 0, 3, false⟩, ⟨.Dot, 3, 4, false⟩,
   ⟨.Word (.Ident "prop"), 4, 8, false⟩, ⟨.PlusPlus, 8, 10, false⟩]

/-- Tokens of `++5`. -/
def toksPP5 : List Token := [⟨.PlusPlus, 0, 2, false⟩, ⟨.Num 5, 2, 3, false⟩]

/-- Tokens of `await x`. -/
def toksAwaitX : List Token :=
  [⟨.Word (.Keyword .Await), 0, 5, false⟩, ⟨.Word (.Ident "x"), 6, 7, false⟩]

/-- Tokens of `await * x`. -/
def toksAwaitStarX : List Token :=
  [⟨.Word (.Keyword .Await), 0, 5, false⟩, ⟨.BinOp .Mul, 6, 7, false⟩,
   ⟨.Word (.Ident "x"), 8, 9, false⟩]

/-- Tokens of `await x ** 2`. -/
def toksAwaitExp : List Token :=
  [⟨.Word (.Keyword .Await), 0, 5, false⟩, ⟨.Word (.Ident "x"), 6, 7, false⟩,
   ⟨.BinOp .Exp, 8, 10, false⟩, ⟨.Num 2, 11, 12, false⟩]

/-- Tokens of `++x ** 2`. -/
def toksPPxExp : List Token :=
  [⟨.PlusPlus, 0, 2, false⟩, ⟨.Word (.Ident "x"), 2, 3, false⟩,
   ⟨.BinOp .Exp, 4, 6, false⟩, ⟨.Num 2, 7, 8, false⟩]

/-- Tokens of a lone `await` word (an imported binding name). -/
def toksAwaitOnly : List Token := [⟨.Word (.Keyword .Await), 0, 5, false⟩]

/-- Tokens of `x in y;` (a default-export expression). -/
def toksXInYSemi : List Token :=
  [⟨.Word (.Ident "x"), 0, 1, false⟩, ⟨.Word (.Keyword .In), 2, 4, false⟩,
   ⟨.Word (.Ident "y"), 5, 6, false⟩, ⟨.Semi, 6, 7, false⟩]

/-- Witness fixture: the already-parsed left operand `x`. -/
def xIdentW : Expr := .mk ⟨0, 1⟩ (.Ident "x")

/-- Witness fixture: a state whose current token is the keyword `in`. -/
def stInW : ParserState := ⟨[⟨.Word (.Keyword .In), 2, 4, false⟩], 1, ctx0⟩

/-- Witness fixture: the already-parsed unary left operand `-2`. -/
def unaryW : Expr := .mk ⟨0, 2⟩ (.Unary .Minus (.mk ⟨1, 2⟩ (.Lit 2)))

/-- Witness fixture: a state whose current token is `**`. -/
def stExpW : ParserState := ⟨[⟨.BinOp .Exp, 3, 5, false⟩], 2, ctx0⟩

/-- Witness fixture: the already-parsed left operand `5`. -/
def litW : Expr := .mk ⟨0, 1⟩ (.Lit 5)

/-- Witness fixture: a state whose current token is `+`. -/
def stAddW : ParserState := ⟨[⟨.BinOp .Add, 2, 3, false⟩], 1, ctx0⟩

/-- Helper: `bump` leaves the context untouched. -/
theorem bump_ctx (st : ParserState) : ((bump st).2).ctx = st.ctx := by
  obtain ⟨toks, lp, c⟩ := st
  cases toks <;> rfl

/-- Helper: a successful `with_ctx` run hands back the caller's context. -/
theorem with_ctx_preserves_ctx {α : Type} (c : Context)
    (f : ParserState → Except SyntaxError (α × ParserState))
    (st : ParserState) (a : α) (st1 : ParserState)
    (h : with_ctx c f st = .ok (a, st1)) : st1.ctx = st.ctx := by
  unfold with_ctx at h
  split at h
  · rename_i a2 st2 heq
    cases h
    rfl
  · cases h

/-- C1: the source sets a postfix `Update` node's span by rebinding
`start` to the position of the `++` token (ops.rs line 166), so on `x++`
the node's span is `[1, 3)` while its operand's span is `[0, 1)`: the
node's span does not contain its child's span, contradicting the claimed
invariant. -/
theorem postfix_update_span_omits_operand :
    parse_unary_expr 99 (mkState toksXpp ctx0) =
      .ok (.mk ⟨1, 3⟩ (.Update .PlusPlus false (.mk ⟨0, 1⟩ (.Ident "x"))),
           ⟨[], 3, ctx0⟩)
    ∧ spanContains ⟨1, 3⟩ ⟨0, 1⟩ = false :=
  ⟨rfl, rfl⟩

/-- C2 counterexample: `instanceof` is classified as a candidate binary
operator even when `include_in_expr` is false (ops.rs line 33 carries no
guard), and `x instanceof y` parses to a `Bin` node under that context —
so the claim that both `in` and `instanceof` are gated by
`include_in_expr` is false. -/
theorem instanceof_not_gated_by_include_in_expr :
    ctx0.include_in_expr = false
    ∧ classify_bin_op ctx0 (some (.Word (.Keyword .InstanceOf)))
        = some .InstanceOf
    ∧ parse_bin_expr 99 (mkState toksXInstY ctx0) =
        .ok (.mk ⟨0, 14⟩ (.Bin .InstanceOf (.mk ⟨0, 1⟩ (.Ident "x"))
               (.mk ⟨13, 14⟩ (.Ident "y"))),
             ⟨[], 14, ctx0⟩) :=
  ⟨rfl, rfl, rfl⟩

/-- C2 (amended): the keyword `in` is a candidate binary operator only if
`include_in_expr` permits it — whenever the current token is `in` and the
flag is off, the engine returns `left` with the token unconsumed, so
parsing `x in y` with the flag off yields `x` with `in y` unconsumed, and
with the flag on yields a single `Bin` node with operator `in`; the
keyword `instanceof` is a candidate regardless of the flag. -/
theorem in_gated_instanceof_ungated :
    (∀ (fuel min_prec : Nat) (left : Expr) (st : ParserState),
        currentKind st = some (.Word (.Keyword .In)) →
        st.ctx.include_in_expr = false →
        parse_bin_op_recursively (fuel+1) left min_prec st = .ok (left, st))
    ∧ (∀ c : Context,
        classify_bin_op c (some (.Word (.Keyword .InstanceOf)))
          = some .InstanceOf)
    ∧ parse_bin_expr 99 (mkState toksXInY ctx0) =
        .ok (.mk ⟨0, 1⟩ (.Ident "x"),
             ⟨[⟨.Word (.Keyword .In), 2, 4, false⟩,
               ⟨.Word (.Ident "y"), 5, 6, false⟩], 1, ctx0⟩)
    ∧ parse_bin_expr 99 (mkState toksXInY ctxIn) =
        .ok (.mk ⟨0, 6⟩ (.Bin .In (.mk ⟨0, 1⟩ (.Ident "x"))
               (.mk ⟨5, 6⟩ (.Ident "y"))),
             ⟨[], 6, ctxIn⟩) := by
  refine ⟨?_, fun c => rfl, rfl, rfl⟩
  intro fuel min_prec left st h1 h2
  obtain ⟨toks, lp, c⟩ := st
  cases toks with
  | nil => simp [currentKind] at h1
  | cons t ts =>
    simp only [currentKind] at h1
    injection h1 with h1
    replace h2 : c.include_in_expr = false := h2
    simp [parse_bin_op_recursively, classify_bin_op, currentKind, h1, h2]

/-- C2 witness: the gating theorem applied to the concrete state whose
current token is `in` under a context with `include_in_expr` off. -/
theorem in_gated_instanceof_ungated_witness :
    parse_bin_op_recursively 1 xIdentW 0 stInW = .ok (xIdentW, stInW) :=
  in_gated_instanceof_ungated.1 0 0 xIdentW stInW rfl rfl

/-- C3: whenever the already-parsed left operand is a `Unary` node, the
current token is `**` and its precedence exceeds the threshold, the engine
signals `UnaryInExp` carrying the left operand's span instead of building
a `Bin` node; concretely `-2 ** 2` fails with that error while `(-2) ** 2`
parses to a `Bin` node. -/
theorem exp_after_unary_is_ambiguous_error :
    (∀ (fuel min_prec : Nat) (left : Expr) (st : ParserState),
        left.node.isUnary = true →
        currentKind st = some (.BinOp .Exp) →
        min_prec < BinaryOp.Exp.precedence →
        parse_bin_op_recursively (fuel+1) left min_prec st =
          .error (.UnaryInExp left.span))
    ∧ parse_bin_expr 99 (mkState toksNeg2Exp ctx0) =
        .error (.UnaryInExp ⟨0, 2⟩)
    ∧ parse_bin_expr 99 (mkState toksParenNeg2Exp ctx0) =
        .ok (.mk ⟨0, 9⟩ (.Bin .Exp
               (.mk ⟨0, 4⟩ (.Paren (.mk ⟨1, 3⟩ (.Unary .Minus
                  (.mk ⟨2, 3⟩ (.Lit 2))))))
               (.mk ⟨8, 9⟩ (.Lit 2))),
             ⟨[], 9, ctx0⟩) := by
  refine ⟨?_, rfl, rfl⟩
  intro fuel min_prec left st h1 h2 h3
  obtain ⟨toks, lp, c⟩ := st
  cases toks with
  | nil => simp [currentKind] at h2
  | cons t ts =>
    simp only [currentKind] at h2
    injection h2 with h2
    simp [parse_bin_op_recursively, classify_bin_op, currentKind, h2,
      BinOpToken.intoBinaryOp, Nat.not_le.mpr h3, h1]

/-- C3 witness: the guard theorem applied to the concrete unary left
operand `-2` with `**` as the current token at threshold 0. -/
theorem exp_after_unary_is_ambiguous_error_witness :
    parse_bin_op_recursively 1 unaryW 0 stExpW =
      .error (.UnaryInExp ⟨0, 2⟩) :=
  exp_after_unary_is_ambiguous_error.1 0 0 unaryW stExpW rfl rfl (by decide)

/-- C4: the right-associative `**` chain `2 ** 3 ** 2` nests on the right
and the left-associative `+` chain `5 + 4 + 7` nests on the left. -/
theorem associativity_nesting :
    parse_bin_expr 99 (mkState toksExpChain ctx0) =
      .ok (.mk ⟨0, 11⟩ (.Bin .Exp (.mk ⟨0, 1⟩ (.Lit 2))
             (.mk ⟨5, 11⟩ (.Bin .Exp (.mk ⟨5, 6⟩ (.Lit 3))
                (.mk ⟨10, 11⟩ (.Lit 2))))),
           ⟨[], 11, ctx0⟩)
    ∧ parse_bin_expr 99 (mkState toksAddChain ctx0) =
        .ok (.mk ⟨0, 9⟩ (.Bin .Add
               (.mk ⟨0, 5⟩ (.Bin .Add (.mk ⟨0, 1⟩ (.Lit 5))
                  (.mk ⟨4, 5⟩ (.Lit 4))))
               (.mk ⟨8, 9⟩ (.Lit 7))),
             ⟨[], 9, ctx0⟩) :=
  ⟨rfl, rfl⟩

/-- C5: whenever the current token classifies to an operator whose
precedence is at most the threshold, the engine returns the left operand
unchanged with the state unchanged (the token unconsumed), deferring the
operator to an outer call; concretely `5 + 4 * 7` parses as
`5 + (4 * 7)`. -/
theorem precedence_nesting_and_deferral :
    (∀ (fuel min_prec : Nat) (left : Expr) (st : ParserState)
       (op : BinaryOp),
        classify_bin_op st.ctx (currentKind st) = some op →
        op.precedence ≤ min_prec →
        parse_bin_op_recursively (fuel+1) left min_prec st = .ok (left, st))
    ∧ parse_bin_expr 99 (mkState toksAddMul ctx0) =
        .ok (.mk ⟨0, 9⟩ (.Bin .Add (.mk ⟨0, 1⟩ (.Lit 5))
               (.mk ⟨4, 9⟩ (.Bin .Mul (.mk ⟨4, 5⟩ (.Lit 4))
                  (.mk ⟨8, 9⟩ (.Lit 7))))),
             ⟨[], 9, ctx0⟩) := by
  refine ⟨?_, rfl⟩
  intro fuel min_prec left st op h1 h2
  simp [parse_bin_op_recursively, h1, h2]

/-- C5 witness: the deferral theorem applied to the concrete left operand
`5` with `+` as the current token at threshold 9. -/
theorem precedence_nesting_and_deferral_witness :
    parse_bin_op_recursively 1 litW 9 stAddW = .ok (litW, stAddW) :=
  precedence_nesting_and_deferral.1 0 9 litW stAddW .Add rfl (by decide)

/-- C6: the update operators validate their operand as a simple assignment
target — `5++`, `(a + b)++` and the prefix `++5` fail with
`NotSimpleAssign` located at the operand's span, while `x++` and
`obj.prop++` yield `Update` nodes. -/
theorem update_target_validation :
    parse_unary_expr 99 (mkState toks5pp ctx0) =
      .error (.NotSimpleAssign ⟨0, 1⟩)
    ∧ parse_unary_expr 99 (mkState toksParenAddPP ctx0) =
        .error (.NotSimpleAssign ⟨0, 7⟩)
    ∧ parse_unary_expr 99 (mkState toksPP5 ctx0) =
        .error (.NotSimpleAssign ⟨2, 3⟩)
    ∧ parse_unary_expr 99 (mkState toksXpp ctx0) =
        .ok (.mk ⟨1, 3⟩ (.Update .PlusPlus false
               (.mk ⟨0, 1⟩ (.Ident "x"))),
             ⟨[], 3, ctx0⟩)
    ∧ parse_unary_expr 99 (mkState toksObjPropPP ctx0) =
        .ok (.mk ⟨8, 10⟩ (.Update .PlusPlus false
               (.mk ⟨0, 8⟩ (.Member (.mk ⟨0, 3⟩ (.Ident "obj")) "prop"))),
             ⟨[], 10, ctx0⟩) :=
  ⟨rfl, rfl, rfl, rfl, rfl⟩

/-- C7: an identifier operand followed by a `++` or `--` token preceded by
a line terminator is returned as-is — the operator token stays in the
stream (for the next statement), whatever context and trailing tokens are
present. -/
theorem postfix_after_line_break_left_unconsumed :
    ∀ (c : Context) (b : Bool) (name : String) (lo hi lo2 hi2 lp : Nat)
      (rest : List Token),
      (parse_unary_expr 9 ⟨⟨.Word (.Ident name), lo, hi, b⟩ ::
           ⟨.PlusPlus, lo2, hi2, true⟩ :: rest, lp, c⟩ =
         .ok (.mk ⟨lo, hi⟩ (.Ident name),
              ⟨⟨.PlusPlus, lo2, hi2, true⟩ :: rest, hi, c⟩))
      ∧ (parse_unary_expr 9 ⟨⟨.Word (.Ident name), lo, hi, b⟩ ::
           ⟨.MinusMinus, lo2, hi2, true⟩ :: rest, lp, c⟩ =
         .ok (.mk ⟨lo, hi⟩ (.Ident name),
              ⟨⟨.MinusMinus, lo2, hi2, true⟩ :: rest, hi, c⟩)) := by
  intro c b name lo hi lo2 hi2 lp rest
  obtain ⟨ci, ca, cg, cs⟩ := c
  cases ca <;> exact ⟨rfl, rfl⟩

/-- C8: when `in_async` holds and the current token is `await`, the unary
parser delegates to `parse_await_expr`; concretely `await x` yields an
`Await` node in an async context, `await * x` fails with `AwaitStar`, and
outside an async context `await x` is not treated as a unary operator (the
word is handed to the left-hand-side collaborator as an identifier-like
token). -/
theorem await_gating :
    (∀ (fuel : Nat) (st : ParserState),
        st.ctx.in_async = true →
        currentKind st = some (.Word (.Keyword .Await)) →
        parse_unary_expr (fuel+1) st = parse_await_expr fuel st)
    ∧ parse_unary_expr 99 (mkState toksAwaitX ctxAsync) =
        .ok (.mk ⟨0, 7⟩ (.Await (.mk ⟨6, 7⟩ (.Ident "x"))),
             ⟨[], 7, ctxAsync⟩)
    ∧ parse_unary_expr 99 (mkState toksAwaitStarX ctxAsync) =
        .error .AwaitStar
    ∧ parse_unary_expr 99 (mkState toksAwaitX ctx0) =
        .ok (.mk ⟨0, 5⟩ (.Ident "await"),
             ⟨[⟨.Word (.Ident "x"), 6, 7, false⟩], 5, ctx0⟩) := by
  refine ⟨?_, rfl, rfl, rfl⟩
  intro fuel st h1 h2
  obtain ⟨toks, lp, c⟩ := st
  cases toks with
  | nil => simp [currentKind] at h2
  | cons t ts =>
    simp only [currentKind] at h2
    injection h2 with h2
    replace h1 : c.in_async = true := h1
    simp [parse_unary_expr, currentKind, h2, h1, is_unary_op_tok]

/-- C8 witness: the delegation applied to the concrete async state on
`await x`. -/
theorem await_gating_witness :
    parse_unary_expr 99 (mkState toksAwaitX ctxAsync) =
      parse_await_expr 98 (mkState toksAwaitX ctxAsync) :=
  await_gating.1 98 (mkState toksAwaitX ctxAsync) rfl rfl

/-- C9: a sub-parse needing a different mode runs under a modified Context
copy scoped to itself — a successful `parse_imported_binding` or
default-export-expression parse hands back the caller's Context; under a
caller context with `in_async` on, the imported binding `await` still
parses (the sub-parse saw `in_async` off) and the returned context has
`in_async` on again; under a caller context with `include_in_expr` off,
`export default x in y;` still parses `in` as an operator (the sub-parse
saw the flag on) and the caller's context is back afterwards. -/
theorem context_override_scoped_to_sub_parse :
    (∀ (st : ParserState) (id : Ident) (st1 : ParserState),
        parse_imported_binding st = .ok (id, st1) → st1.ctx = st.ctx)
    ∧ (∀ (fuel : Nat) (st st1 : ParserState) (e : Expr),
        parse_export_default_expr fuel st = .ok (e, st1) → st1.ctx = st.ctx)
    ∧ parse_binding_ident (mkState toksAwaitOnly ctxAsync) =
        .error .Unexpected
    ∧ parse_imported_binding (mkState toksAwaitOnly ctxAsync) =
        .ok (⟨⟨0, 5⟩, "await"⟩, ⟨[], 5, ctxAsync⟩)
    ∧ parse_export_default_expr 99 (mkState toksXInYSemi ctx0) =
        .ok (.mk ⟨0, 6⟩ (.Bin .In (.mk ⟨0, 1⟩ (.Ident "x"))
               (.mk ⟨5, 6⟩ (.Ident "y"))),
             ⟨[], 7, ctx0⟩) := by
  refine ⟨?_, ?_, rfl, rfl, rfl⟩
  · intro st id st1 h
    exact with_ctx_preserves_ctx _ _ _ _ _ h
  · intro fuel st st1 e h
    unfold parse_export_default_expr at h
    split at h
    · cases h
    · rename_i expr st2 heq
      split at h
      · rename_i t ts
        split at h
        · cases h
          rw [bump_ctx]
          exact with_ctx_preserves_ctx _ _ _ _ _ heq
        · cases h
      · cases h

/-- C9 witness: the scoping theorem applied to the concrete imported
binding `await` under an async caller context. -/
theorem context_override_scoped_witness :
    (⟨[], 5, ctxAsync⟩ : ParserState).ctx =
      (mkState toksAwaitOnly ctxAsync).ctx :=
  context_override_scoped_to_sub_parse.1 (mkState toksAwaitOnly ctxAsync)
    ⟨⟨0, 5⟩, "await"⟩ ⟨[], 5, ctxAsync⟩ rfl

/-- C10: the `UnaryInExp` guard matches only `Unary` nodes — `Await` and
`Update` nodes are not `Unary` — so `await x ** 2` (in an async context)
and `++x ** 2` build `Bin` nodes without error. -/
theorem exp_guard_ignores_await_and_update :
    (∀ e : Expr, (ExprKind.Await e).isUnary = false)
    ∧ (∀ (op : UpdateOp) (p : Bool) (e : Expr),
        (ExprKind.Update op p e).isUnary = false)
    ∧ parse_bin_expr 99 (mkState toksAwaitExp ctxAsync) =
        .ok (.mk ⟨0, 12⟩ (.Bin .Exp
               (.mk ⟨0, 7⟩ (.Await (.mk ⟨6, 7⟩ (.Ident "x"))))
               (.mk ⟨11, 12⟩ (.Lit 2))),
             ⟨[], 12, ctxAsync⟩)
    ∧ parse_bin_expr 99 (mkState toksPPxExp ctx0) =
        .ok (.mk ⟨0, 8⟩ (.Bin .Exp
               (.mk ⟨0, 3⟩ (.Update .PlusPlus true
                  (.mk ⟨2, 3⟩ (.Ident "x"))))
               (.mk ⟨7, 8⟩ (.Lit 2))),
             ⟨[], 8, ctx0⟩) :=
  ⟨fun _ => rfl, fun _ _ _ => rfl, rfl, rfl⟩
